import Mathlib

/-!
Verification development for the canteen-management backend
(`src/main.py`, `src/schemas.py`).

The service is shallowly embedded: the persistence collaborator (a MongoDB
handle reached through `database.py`, which is not part of the verified
sources) is modelled as an explicit in-memory state `DB` threaded through
every operation, following the spec's abstract contract
`insert / find_one / update_one / count`.  Python `float` monetary values
are modelled as exact rationals `ℚ`; Python `round(x, 2)` is modelled as
round-half-to-even at two decimal places (`round2`).  `HTTPException` and
pydantic `ValidationError` are modelled by the error type `Err`; every
operation returns the (possibly updated) state together with
`Except Err result`, an exception leaving the state unchanged exactly when
the code raises before any write.
-/

namespace Canteen

/-- Errors surfaced by the endpoints: `HTTPException(status_code, detail)`
raised explicitly in `main.py`, and pydantic `ValidationError` raised by the
schema constructors in `schemas.py` (field constraints such as `ge=1`). -/
inductive Err where
  | http (status_code : Nat) (detail : String)
  | validation (msg : String)
  deriving DecidableEq, Repr

/-- Decidable equality of `Except` results, used to evaluate the model on
concrete inputs. -/
def exceptDecEq {ε α : Type} [DecidableEq ε] [DecidableEq α] :
    (a b : Except ε α) → Decidable (a = b)
  | Except.error a, Except.error b =>
    if h : a = b then Decidable.isTrue (by rw [h])
    else Decidable.isFalse (by simp [h])
  | Except.error _, Except.ok _ => Decidable.isFalse (by simp)
  | Except.ok _, Except.error _ => Decidable.isFalse (by simp)
  | Except.ok a, Except.ok b =>
    if h : a = b then Decidable.isTrue (by rw [h])
    else Decidable.isFalse (by simp [h])

instance {ε α : Type} [DecidableEq ε] [DecidableEq α] :
    DecidableEq (Except ε α) := exceptDecEq

/-- A hexadecimal digit, either case (the characters BSON accepts in the
string form of an `ObjectId`). -/
def isHexChar (c : Char) : Bool :=
  c.isDigit || (Char.ofNat 97 ≤ c && c ≤ Char.ofNat 102) ||
    (Char.ofNat 65 ≤ c && c ≤ Char.ofNat 70)

/-- `bson.ObjectId(s)` succeeds exactly on 24-character hex strings; this is
the validity test behind `object_id` in `main.py`. -/
def isValidOid (s : String) : Bool :=
  decide (s.length = 24) && s.toList.all isHexChar

/-- `object_id` helper of `main.py`: parse the path/payload id, raising
`HTTPException(400, "Invalid id")` when `ObjectId(id_str)` fails. -/
def object_id (s : String) : Except Err String :=
  if isValidOid s then Except.ok s else Except.error (Err.http 400 "Invalid id")

/-- Hex digit character for id generation. -/
def hexChar (n : Nat) : Char :=
  if n < 10 then Char.ofNat (48 + n) else Char.ofNat (87 + n)

/-- Little helper: the last `k` hex digits of `n`, most significant first. -/
def hexDigits : Nat → Nat → List Char
  | _, 0 => []
  | n, k + 1 => hexDigits (n / 16) k ++ [hexChar (n % 16)]

/-- Modelled from the spec: the persistence collaborator's ids are
"totally-ordered-by-creation, globally-unique, string-representable";
`database.py` (not under `src/`) lets MongoDB assign a fresh `ObjectId`.
We generate the 24-hex-digit string of a per-store counter. -/
def freshId (n : Nat) : String := String.mk (hexDigits n 24)

/-- A stored `menuitem` document.  Documents are schemaless in the store
(arbitrary patches via `update_menu_item`, `doc.get` with defaults in
`create_order`), so every field is optional here. -/
structure MenuDoc where
  name : Option String := none
  category : Option String := none
  price : Option ℚ := none
  is_available : Option Bool := none
  description : Option String := none
  deriving DecidableEq, Repr

/-- `Orderitem` of `schemas.py`: embedded snapshot line of an order. -/
structure Orderitem where
  menu_item_id : String
  name : String
  price : ℚ
  quantity : Int
  line_total : ℚ
  deriving DecidableEq, Repr

/-- `Order` of `schemas.py`: persisted order document. -/
structure OrderDoc where
  customer_name : String
  table_number : Option String
  items : List Orderitem
  subtotal : ℚ
  tax : ℚ
  total : ℚ
  status : String
  deriving DecidableEq, Repr

/-- Modelled from the spec: the persistence collaborator's state — the
`menuitem` and `order` collections as association lists keyed by the
string form of `_id` (ids are unique), plus the id-generation counter. -/
structure DB where
  menuitem : List (String × MenuDoc)
  order : List (String × OrderDoc)
  nextId : Nat
  deriving DecidableEq, Repr

/-- Modelled from the spec: `insert("order", document) -> id`
(`create_document` of `database.py`, not under `src/`). -/
def insertOrder (db : DB) (doc : OrderDoc) : String × DB :=
  (freshId db.nextId,
    { db with order := db.order ++ [(freshId db.nextId, doc)],
              nextId := db.nextId + 1 })

/-- `db["menuitem"].find_one({"_id": object_id(mid), "is_available": True})`:
the availability-filtered catalog lookup of `create_order`.  A document
matches only if its key equals the parsed id and `is_available` is literally
`true` (a missing field does not match the filter). -/
def findMenuAvailable (db : DB) (oid : String) : Option MenuDoc :=
  (db.menuitem.find? (fun q => q.1 == oid && q.2.is_available == some true)).map
    Prod.snd

/-- One requested line of the `CreateOrder` payload: a dict
`{menu_item_id, quantity}` whose `quantity` key may be absent
(`i.get("quantity", 1)`); the JSON integer is already coerced. -/
structure RequestLine where
  menu_item_id : String
  quantity : Option Int
  deriving DecidableEq, Repr

/-- `CreateOrder` request body of `main.py`. -/
structure CreateOrder where
  customer_name : String
  table_number : Option String
  items : List RequestLine
  deriving DecidableEq, Repr

/-- The JSON body returned by a successful `create_order`. -/
structure OrderResponse where
  id : String
  subtotal : ℚ
  tax : ℚ
  total : ℚ
  deriving DecidableEq, Repr

/-- Floor of a rational, computed on the normalised numerator/denominator. -/
def qfloor (q : ℚ) : Int := Int.fdiv q.num q.den

/-- Round a rational to the nearest integer, ties to even — the behaviour of
Python 3 `round` on non-negative floats of this pipeline. -/
def rnd (q : ℚ) : Int :=
  let f := qfloor q
  let frac := q - (f : ℚ)
  if frac < 1 / 2 then f
  else if 1 / 2 < frac then f + 1
  else if f % 2 = 0 then f else f + 1

/-- Python `round(x, 2)`. -/
def round2 (q : ℚ) : ℚ := ((rnd (q * 100) : Int) : ℚ) / 100

/-- Pydantic construction `Orderitem(...)` of `schemas.py`: `name` must be a
string (the value came from `doc.get("name")` and may be `None`), `price ≥ 0`,
`quantity ≥ 1`, `line_total ≥ 0`; any violation raises `ValidationError`. -/
def mkOrderitem (menu_item_id : String) (name : Option String) (price : ℚ)
    (quantity : Int) (line_total : ℚ) : Except Err Orderitem :=
  match name with
  | none => Except.error (Err.validation "name must be a string")
  | some nm =>
    if price < 0 then Except.error (Err.validation "price must be >= 0")
    else if quantity < 1 then
      Except.error (Err.validation "quantity must be >= 1")
    else if line_total < 0 then
      Except.error (Err.validation "line_total must be >= 0")
    else Except.ok ⟨menu_item_id, nm, price, quantity, line_total⟩

/-- Pydantic construction `Order(...)` of `schemas.py`: `subtotal`, `tax`,
`total` each `ge=0`; `status` is not passed by `create_order`, so it takes
its declared default `"pending"`. -/
def mkOrder (customer_name : String) (table_number : Option String)
    (items : List Orderitem) (subtotal tax total : ℚ) : Except Err OrderDoc :=
  if subtotal < 0 then Except.error (Err.validation "subtotal must be >= 0")
  else if tax < 0 then Except.error (Err.validation "tax must be >= 0")
  else if total < 0 then Except.error (Err.validation "total must be >= 0")
  else Except.ok ⟨customer_name, table_number, items, subtotal, tax, total,
    "pending"⟩

/-- One iteration of the `for i in payload.items` loop of `create_order`:
coerce the quantity (missing → 1), parse the id, look the item up with the
availability filter, default a missing price to 0, snapshot name/price and
build the validated `Orderitem` together with its `line_total`. -/
def priceLine (db : DB) (i : RequestLine) : Except Err (Orderitem × ℚ) :=
  let qty : Int := i.quantity.getD 1
  match object_id i.menu_item_id with
  | Except.error e => Except.error e
  | Except.ok oid =>
    match findMenuAvailable db oid with
    | none =>
      Except.error (Err.http 400 ("Menu item " ++ i.menu_item_id ++
        " unavailable"))
    | some doc =>
      let price : ℚ := doc.price.getD 0
      let line_total : ℚ := price * (qty : ℚ)
      match mkOrderitem oid doc.name price qty line_total with
      | Except.error e => Except.error e
      | Except.ok it => Except.ok (it, line_total)

/-- The whole loop of `create_order`: `order_items` accumulates by `append`,
`subtotal` by `+=`, and any raised exception aborts the remaining lines. -/
def processLines (db : DB) :
    List RequestLine → List Orderitem → ℚ → Except Err (List Orderitem × ℚ)
  | [], acc, subtotal => Except.ok (acc, subtotal)
  | i :: rest, acc, subtotal =>
    match priceLine db i with
    | Except.error e => Except.error e
    | Except.ok (it, lt) => processLines db rest (acc ++ [it]) (subtotal + lt)

/-- `POST /api/orders` (`create_order` of `main.py`): price every requested
line against the catalog, compute `tax = round(subtotal*0.05, 2)` and
`total = round(subtotal + tax, 2)`, build the `Order` document with
`subtotal` rounded for output, persist it, and answer with the amounts.
Any exception leaves the store untouched. -/
def create_order (db : DB) (payload : CreateOrder) :
    DB × Except Err OrderResponse :=
  match processLines db payload.items [] 0 with
  | Except.error e => (db, Except.error e)
  | Except.ok (order_items, subtotal) =>
    let tax := round2 (subtotal * (5 / 100))
    let total := round2 (subtotal + tax)
    match mkOrder payload.customer_name payload.table_number order_items
        (round2 subtotal) tax total with
    | Except.error e => (db, Except.error e)
    | Except.ok order_doc =>
      let r := insertOrder db order_doc
      (r.2, Except.ok ⟨r.1, order_doc.subtotal, order_doc.tax,
        order_doc.total⟩)

/-- A partial patch of a `menuitem` document, as sent to
`PATCH /api/menu/{item_id}` (`$set` of the supplied fields). -/
structure MenuPatch where
  name : Option String := none
  category : Option String := none
  price : Option ℚ := none
  is_available : Option Bool := none
  description : Option String := none
  deriving DecidableEq, Repr

/-- `$set` merge of a patch into a stored document. -/
def applyPatch (d : MenuDoc) (p : MenuPatch) : MenuDoc :=
  { name := p.name.orElse (fun _ => d.name),
    category := p.category.orElse (fun _ => d.category),
    price := p.price.orElse (fun _ => d.price),
    is_available := p.is_available.orElse (fun _ => d.is_available),
    description := p.description.orElse (fun _ => d.description) }

/-- Modelled from the spec: `update_one("menuitem", id, patch) -> matched`
(`db["menuitem"].update_one({"_id": oid}, {"$set": payload})`). -/
def updateOneMenu (db : DB) (oid : String) (p : MenuPatch) : DB × Bool :=
  if db.menuitem.any (fun q => q.1 == oid) then
    let f := fun q : String × MenuDoc =>
      if q.1 == oid then (q.1, applyPatch q.2 p) else q
    ({ db with menuitem := db.menuitem.map f }, true)
  else (db, false)

/-- `PATCH /api/menu/{item_id}` (`update_menu_item` of `main.py`). -/
def update_menu_item (db : DB) (item_id : String) (payload : MenuPatch) :
    DB × Except Err Bool :=
  match object_id item_id with
  | Except.error e => (db, Except.error e)
  | Except.ok oid =>
    let r := updateOneMenu db oid payload
    if r.2 = false then (db, Except.error (Err.http 404 "Item not found"))
    else (r.1, Except.ok true)

/-- The five admissible order statuses, in the order `main.py` lists them. -/
def orderStatuses : List String :=
  ["pending", "preparing", "ready", "completed", "cancelled"]

/-- `payload.get("status") in [...]`: `None` (missing key) is not in the
list, so it fails the check like any other bad value. -/
def statusAllowed : Option String → Bool
  | some s => orderStatuses.contains s
  | none => false

/-- Modelled from the spec: `update_one("order", id, {status}) -> matched`
(`db["order"].update_one({"_id": oid}, {"$set": {"status": status}})`). -/
def updateOneOrderStatus (db : DB) (oid : String) (status : String) :
    DB × Bool :=
  if db.order.any (fun q => q.1 == oid) then
    let f := fun q : String × OrderDoc =>
      if q.1 == oid then (q.1, { q.2 with status := status }) else q
    ({ db with order := db.order.map f }, true)
  else (db, false)

/-- `PATCH /api/orders/{order_id}` (`update_order_status` of `main.py`):
validate the status value first, then parse the id, then `$set` only the
`status` field of the matched order. -/
def update_order_status (db : DB) (order_id : String)
    (payload : Option String) : DB × Except Err Bool :=
  match payload with
  | none => (db, Except.error (Err.http 400 "Invalid status"))
  | some status =>
    if status ∈ orderStatuses then
      match object_id order_id with
      | Except.error e => (db, Except.error e)
      | Except.ok oid =>
        let r := updateOneOrderStatus db oid status
        if r.2 = false then
          (db, Except.error (Err.http 404 "Order not found"))
        else (r.1, Except.ok true)
    else (db, Except.error (Err.http 400 "Invalid status"))

/-- The body returned by `GET /api/metrics`. -/
structure Metrics where
  total_menu : Nat
  active_orders : Nat
  completed_orders : Nat
  deriving DecidableEq, Repr

/-- Modelled from the spec: `count("order", filter) -> integer`
(`db["order"].count_documents(filter)`): the number of stored order
documents matching the filter predicate. -/
def countOrders (db : DB) (p : OrderDoc → Bool) : Nat :=
  (db.order.filter (fun q => p q.2)).length

/-- Modelled from the spec: `count("menuitem", {}) -> integer`
(`db["menuitem"].count_documents({})`): the empty filter matches all. -/
def countAllMenu (db : DB) : Nat := db.menuitem.length

/-- `GET /api/metrics` (`metrics` of `main.py`): recomputed from the current
store state on every call — no cache is consulted or maintained. -/
def metrics (db : DB) : Metrics :=
  { total_menu := countAllMenu db,
    active_orders :=
      countOrders db (fun o => ["pending", "preparing"].contains o.status),
    completed_orders := countOrders db (fun o => o.status == "completed") }

/-- Specification-side value of one requested line: the catalog price at
lookup time (0 when the field is missing) times the coerced quantity. -/
def specLineTotal (db : DB) (i : RequestLine) : ℚ :=
  match findMenuAvailable db i.menu_item_id with
  | some doc => doc.price.getD 0 * ((i.quantity.getD 1 : Int) : ℚ)
  | none => 0

/-- Specification-side exact (unrounded) subtotal of a request. -/
def specSubtotal (db : DB) (ls : List RequestLine) : ℚ :=
  (ls.map (specLineTotal db)).sum

/-- The line items of the most recently inserted order, for stating what a
`create_order` call just persisted. -/
def lastOrderItems (db : DB) : List Orderitem :=
  ((db.order.getLast?).map (fun q => q.2.items)).getD []

/-- The customer name of the most recently inserted order. -/
def lastOrderCustomer (db : DB) : Option String :=
  (db.order.getLast?).map (fun q => q.2.customer_name)

/-- Subtotal, tax, total and status of the most recently inserted order. -/
def lastOrderAmounts (db : DB) : Option (ℚ × ℚ × ℚ × String) :=
  (db.order.getLast?).map (fun q => (q.2.subtotal, q.2.tax, q.2.total, q.2.status))

end Canteen

attribute [local semireducible] Rat.mul Rat.add Rat.sub Rat.inv

namespace Canteen

theorem exmap_ok {ε α β : Type} (f : α → β) (a : α) :
    Except.map f (Except.ok a : Except ε α) = Except.ok (f a) := rfl

theorem exmap_error {ε α β : Type} (f : α → β) (e : ε) :
    Except.map f (Except.error e : Except ε α) = Except.error e := rfl

theorem isOk_iff {ε α : Type} (x : Except ε α) :
    x.isOk = true ↔ ∃ a, x = Except.ok a := by
  cases x <;> simp [Except.isOk, Except.toBool]

/-- `object_id` returns the input string unchanged when it succeeds. -/
theorem object_id_ok {s t : String} (h : object_id s = Except.ok t) :
    t = s ∧ isValidOid s = true := by
  unfold object_id at h
  by_cases hv : isValidOid s = true
  · simp [hv] at h
    exact ⟨h.symm, hv⟩
  · simp [hv] at h

theorem object_id_of_valid {s : String} (h : isValidOid s = true) :
    object_id s = Except.ok s := by
  unfold object_id
  simp [h]

/-- Generalise the loop accumulators: running the loop with non-trivial
initial accumulators appends/adds onto the run from empty ones. -/
theorem processLines_acc (db : DB) (ls : List RequestLine) :
    ∀ (acc : List Orderitem) (sub : ℚ),
      processLines db ls acc sub =
        Except.map (fun r => (acc ++ r.1, sub + r.2))
          (processLines db ls [] 0) := by
  induction ls with
  | nil => intro acc sub; simp [processLines, exmap_ok]
  | cons i rest ih =>
    intro acc sub
    simp only [processLines]
    cases hp : priceLine db i with
    | error e => simp [exmap_error]
    | ok p =>
      obtain ⟨it, lt⟩ := p
      show processLines db rest (acc ++ [it]) (sub + lt) =
        Except.map (fun r => (acc ++ r.1, sub + r.2))
          (processLines db rest ([] ++ [it]) (0 + lt))
      rw [ih (acc ++ [it]) (sub + lt), ih ([] ++ [it]) (0 + lt)]
      cases processLines db rest [] 0 with
      | error e => simp [exmap_error]
      | ok r =>
        simp [exmap_ok, List.append_assoc, add_assoc]

/-- A successful run of the loop extends the initial accumulator. -/
theorem processLines_acc_leading {db : DB} {ls : List RequestLine}
    {acc : List Orderitem} {sub : ℚ} {its : List Orderitem} {S : ℚ}
    (h : processLines db ls acc sub = Except.ok (its, S)) :
    ∃ tail, its = acc ++ tail := by
  rw [processLines_acc] at h
  cases hb : processLines db ls [] 0 with
  | error e => rw [hb] at h; simp [exmap_error] at h
  | ok r =>
    rw [hb] at h
    simp [exmap_ok] at h
    exact ⟨r.1, h.1.symm⟩

/-- A successful `priceLine` returns the line's availability-checked catalog
snapshot: its `line_total` is the spec-side `price * quantity`. -/
theorem priceLine_ok {db : DB} {i : RequestLine} {it : Orderitem} {lt : ℚ}
    (h : priceLine db i = Except.ok (it, lt)) :
    lt = specLineTotal db i ∧ it.line_total = lt ∧
      it.menu_item_id = i.menu_item_id ∧ it.quantity = i.quantity.getD 1 := by
  unfold priceLine at h
  cases ho : object_id i.menu_item_id with
  | error e => rw [ho] at h; simp at h
  | ok oid =>
    rw [ho] at h
    obtain ⟨rfl, hv⟩ := object_id_ok ho
    simp only [] at h
    cases hf : findMenuAvailable db i.menu_item_id with
    | none => rw [hf] at h; simp at h
    | some doc =>
      rw [hf] at h
      simp only [] at h
      unfold mkOrderitem at h
      cases hn : doc.name with
      | none => rw [hn] at h; simp at h
      | some nm =>
        rw [hn] at h
        by_cases hp : doc.price.getD 0 < 0
        · simp [hp] at h
        · by_cases hq : i.quantity.getD 1 < 1
          · simp [hp, hq] at h
          · by_cases hl : doc.price.getD 0 * ((i.quantity.getD 1 : Int) : ℚ) < 0
            · simp [hp, hq, hl] at h
            · simp [hp, hq, hl] at h
              obtain ⟨hit, hlt⟩ := h
              subst hit
              subst hlt
              exact ⟨by simp [specLineTotal, hf], rfl, rfl, rfl⟩

/-- The accumulated `subtotal` of a successful loop run is the exact sum of
the spec-side per-line values, with no intermediate rounding. -/
theorem processLines_subtotal {db : DB} {ls : List RequestLine}
    {its : List Orderitem} {S : ℚ}
    (h : processLines db ls [] 0 = Except.ok (its, S)) :
    S = specSubtotal db ls := by
  induction ls generalizing its S with
  | nil =>
    simp [processLines] at h
    simp [specSubtotal, ← h.2]
  | cons i rest ih =>
    simp only [processLines] at h
    cases hp : priceLine db i with
    | error e => rw [hp] at h; simp at h
    | ok p =>
      obtain ⟨it, lt⟩ := p
      rw [hp] at h
      simp only [] at h
      rw [processLines_acc] at h
      cases hb : processLines db rest [] 0 with
      | error e => rw [hb] at h; simp [exmap_error] at h
      | ok r =>
        rw [hb] at h
        simp [exmap_ok] at h
        have hS : S = lt + r.2 := h.2.symm
        have hr : r.2 = specSubtotal db rest := ih (by rw [hb])
        have hlt : lt = specLineTotal db i := (priceLine_ok hp).1
        simp [specSubtotal] at hr ⊢
        rw [hS, hlt, hr]

/-- A line whose lookup fails (nonexistent, malformed, or unavailable id)
makes `priceLine` raise. -/
theorem priceLine_err_of_unavailable {db : DB} {i : RequestLine}
    (h : findMenuAvailable db i.menu_item_id = none) :
    (priceLine db i).isOk = false := by
  unfold priceLine
  by_cases hv : isValidOid i.menu_item_id = true
  · rw [object_id_of_valid hv]
    simp only [] at h ⊢
    rw [h]
    simp [Except.isOk, Except.toBool]
  · unfold object_id
    simp [hv, Except.isOk, Except.toBool]

/-- A line whose lookup fails, with a well-formed id, raises the
unavailable error naming the requested id. -/
theorem priceLine_unavailable_msg {db : DB} {i : RequestLine}
    (hv : isValidOid i.menu_item_id = true)
    (h : findMenuAvailable db i.menu_item_id = none) :
    priceLine db i =
      Except.error (Err.http 400 ("Menu item " ++ i.menu_item_id ++
        " unavailable")) := by
  unfold priceLine
  rw [object_id_of_valid hv]
  simp only [] at h ⊢
  rw [h]

/-- A line whose coerced quantity is below 1 makes `priceLine` raise
(whichever failure fires first). -/
theorem priceLine_err_of_qty {db : DB} {i : RequestLine}
    (h : i.quantity.getD 1 < 1) :
    (priceLine db i).isOk = false := by
  unfold priceLine
  by_cases hv : isValidOid i.menu_item_id = true
  · rw [object_id_of_valid hv]
    simp only []
    cases hf : findMenuAvailable db i.menu_item_id with
    | none => simp [Except.isOk, Except.toBool]
    | some doc =>
      simp only []
      unfold mkOrderitem
      cases hn : doc.name with
      | none => simp [hn, Except.isOk, Except.toBool]
      | some nm =>
        by_cases hp : doc.price.getD 0 < 0
        · simp [hn, hp, Except.isOk, Except.toBool]
        · simp [hn, hp, h, Except.isOk, Except.toBool]
  · unfold object_id
    simp [hv, Except.isOk, Except.toBool]

/-- A line reached after well-behaved predecessors, referencing an available
item with a string name and non-negative price but carrying a coerced
quantity below 1, raises pydantic's `ge=1` validation error. -/
theorem priceLine_qty_msg {db : DB} {i : RequestLine} {doc : MenuDoc}
    {nm : String}
    (hv : isValidOid i.menu_item_id = true)
    (hf : findMenuAvailable db i.menu_item_id = some doc)
    (hn : doc.name = some nm)
    (hp : 0 ≤ doc.price.getD 0)
    (hq : i.quantity.getD 1 < 1) :
    priceLine db i = Except.error (Err.validation "quantity must be >= 1") := by
  unfold priceLine
  rw [object_id_of_valid hv]
  simp only [] at hf ⊢
  rw [hf]
  simp only []
  unfold mkOrderitem
  rw [hn]
  simp [not_lt.2 hp, hq]

/-- If some line raises, the whole loop raises. -/
theorem processLines_err {db : DB} {ls : List RequestLine}
    (h : ∃ i ∈ ls, (priceLine db i).isOk = false) :
    ∀ acc sub, (processLines db ls acc sub).isOk = false := by
  induction ls with
  | nil => simp at h
  | cons j rest ih =>
    intro acc sub
    simp only [processLines]
    cases hp : priceLine db j with
    | error e => simp [Except.isOk, Except.toBool]
    | ok p =>
      obtain ⟨it, lt⟩ := p
      simp only []
      obtain ⟨i, hmem, hbad⟩ := h
      rcases List.mem_cons.1 hmem with hji | hirest
      · rw [hji] at hbad; rw [hp] at hbad; simp [Except.isOk, Except.toBool] at hbad
      · exact ih ⟨i, hirest, hbad⟩ (acc ++ [it]) (sub + lt)

/-- If every line before `i` succeeds and `i` raises `e`, the loop raises
exactly `e`. -/
theorem processLines_first_err {db : DB} {i : RequestLine} {e : Err}
    (hi : priceLine db i = Except.error e) :
    ∀ (pre post : List RequestLine), (∀ j ∈ pre, (priceLine db j).isOk = true) →
      ∀ acc sub, processLines db (pre ++ i :: post) acc sub = Except.error e := by
  intro pre
  induction pre with
  | nil =>
    intro post _ acc sub
    simp only [List.nil_append, processLines]
    rw [hi]
  | cons j rest ih =>
    intro post hok acc sub
    simp only [List.cons_append, processLines]
    cases hp : priceLine db j with
    | error e' =>
      have := hok j (List.mem_cons_self j rest)
      rw [hp] at this
      simp [Except.isOk, Except.toBool] at this
    | ok p =>
      obtain ⟨it, lt⟩ := p
      simp only []
      exact ih post (fun k hk => hok k (List.mem_cons_of_mem j hk)) (acc ++ [it]) (sub + lt)

/-- When the pricing loop raises, `create_order` re-raises the same error
without touching the store. -/
theorem create_order_err {db : DB} {p : CreateOrder} {e : Err}
    (h : processLines db p.items [] 0 = Except.error e) :
    create_order db p = (db, Except.error e) := by
  unfold create_order
  rw [h]

/-- When the pricing loop raises at all, `create_order` fails and the store
is unchanged. -/
theorem create_order_err_of_processLines {db : DB} {p : CreateOrder}
    (h : (processLines db p.items [] 0).isOk = false) :
    (create_order db p).2.isOk = false ∧ (create_order db p).1 = db := by
  cases hb : processLines db p.items [] 0 with
  | error e => rw [create_order_err hb]; simp [Except.isOk, Except.toBool]
  | ok r => rw [hb] at h; simp [Except.isOk, Except.toBool] at h

/-- A successful `mkOrder` returns exactly the supplied fields with the
default `pending` status. -/
theorem mkOrder_ok {c : String} {t : Option String} {its : List Orderitem}
    {s tax tot : ℚ} {od : OrderDoc}
    (h : mkOrder c t its s tax tot = Except.ok od) :
    od = ⟨c, t, its, s, tax, tot, "pending"⟩ := by
  unfold mkOrder at h
  by_cases h1 : s < 0
  · simp [h1] at h
  · by_cases h2 : tax < 0
    · simp [h1, h2] at h
    · by_cases h3 : tot < 0
      · simp [h1, h2, h3] at h
      · simp [h1, h2, h3] at h
        exact h.symm

/-- C1: For every order-creation request whose lines all reference available
menu items, the persisted/returned amounts satisfy: `subtotal` is the exact
sum of `price_i * quantity_i` over the lines with rounding to 2 decimals
applied only once at the output boundary, `tax = round2(subtotal * 0.05)`
computed from the unrounded subtotal, and `total = round2(subtotal + tax)`. -/
theorem create_order_pricing (db db2 : DB) (p : CreateOrder)
    (resp : OrderResponse)
    (h : create_order db p = (db2, Except.ok resp)) :
    resp.subtotal = round2 (specSubtotal db p.items) ∧
    resp.tax = round2 (specSubtotal db p.items * (5 / 100)) ∧
    resp.total = round2 (specSubtotal db p.items +
      round2 (specSubtotal db p.items * (5 / 100))) ∧
    lastOrderAmounts db2 = some (resp.subtotal, resp.tax, resp.total,
      "pending") ∧
    db2.order.dropLast = db.order := by
  unfold create_order at h
  cases hb : processLines db p.items [] 0 with
  | error e => rw [hb] at h; simp at h
  | ok r =>
    obtain ⟨its, S⟩ := r
    rw [hb] at h
    simp only [] at h
    cases hm : mkOrder p.customer_name p.table_number its (round2 S)
        (round2 (S * (5 / 100)))
        (round2 (S + round2 (S * (5 / 100)))) with
    | error e => rw [hm] at h; simp at h
    | ok od =>
      rw [hm] at h
      simp only [insertOrder] at h
      have hod := mkOrder_ok hm
      have hS := processLines_subtotal hb
      have hdb : ({ db with
          order := db.order ++ [(freshId db.nextId, od)],
          nextId := db.nextId + 1 } : DB) = db2 := congrArg Prod.fst h
      have hresp : resp = ⟨freshId db.nextId, od.subtotal, od.tax,
          od.total⟩ := by
        have h2 := congrArg Prod.snd h
        simp at h2
        exact h2.symm
      subst hS
      subst hod
      rw [← hdb, hresp]
      refine ⟨rfl, rfl, rfl, ?_, ?_⟩
      · simp [lastOrderAmounts]
      · simp

def dbW1 : DB :=
  ⟨[("aaaaaaaaaaaaaaaaaaaaaaaa",
    { name := some "Tea", category := some "Beverages", price := some 10,
      is_available := some true })], [], 0⟩

def reqW1 : CreateOrder :=
  ⟨"Bob", some "T1", [⟨"aaaaaaaaaaaaaaaaaaaaaaaa", some 2⟩]⟩

def db2W1 : DB :=
  ⟨dbW1.menuitem,
    [(freshId 0, ⟨"Bob", some "T1",
      [⟨"aaaaaaaaaaaaaaaaaaaaaaaa", "Tea", 10, 2, 20⟩], 20, 1, 21,
      "pending"⟩)], 1⟩

def respW1 : OrderResponse := ⟨freshId 0, 20, 1, 21⟩

/-- Witness for C1: a two-unit order of a 10.00 item prices at
subtotal 20.00, tax 1.00, total 21.00 and is persisted with status
`pending`. -/
theorem create_order_pricing_witness :
    respW1.subtotal = round2 (specSubtotal dbW1 reqW1.items) ∧
    respW1.tax = round2 (specSubtotal dbW1 reqW1.items * (5 / 100)) ∧
    respW1.total = round2 (specSubtotal dbW1 reqW1.items +
      round2 (specSubtotal dbW1 reqW1.items * (5 / 100))) ∧
    lastOrderAmounts db2W1 = some (respW1.subtotal, respW1.tax, respW1.total,
      "pending") ∧
    db2W1.order.dropLast = dbW1.order :=
  create_order_pricing dbW1 db2W1 reqW1 respW1 (by decide)

/-- C2: Order creation is atomic and all-or-nothing: a request containing a
line whose id does not resolve to an available item fails without
persisting anything, and when every earlier line is well-behaved the error
is the 400 naming the offending id. -/
theorem create_order_atomic (db1 : DB) (p1 : CreateOrder)
    (h1 : ∃ j ∈ p1.items, findMenuAvailable db1 j.menu_item_id = none)
    (db2 : DB) (c2 : String) (t2 : Option String)
    (pre post : List RequestLine) (i : RequestLine)
    (h2a : ∀ j ∈ pre, (priceLine db2 j).isOk = true)
    (h2b : isValidOid i.menu_item_id = true)
    (h2c : findMenuAvailable db2 i.menu_item_id = none) :
    ((create_order db1 p1).2.isOk = false ∧ (create_order db1 p1).1 = db1) ∧
    (create_order db2 ⟨c2, t2, pre ++ i :: post⟩).2 =
      Except.error (Err.http 400 ("Menu item " ++ i.menu_item_id ++
        " unavailable")) ∧
    (create_order db2 ⟨c2, t2, pre ++ i :: post⟩).1 = db2 := by
  refine ⟨?_, ?_⟩
  · apply create_order_err_of_processLines
    obtain ⟨j, hmem, hbad⟩ := h1
    exact processLines_err ⟨j, hmem, priceLine_err_of_unavailable hbad⟩ [] 0
  · have he := priceLine_unavailable_msg h2b h2c
    have hpl := processLines_first_err he pre post h2a [] 0
    have hco := @create_order_err db2 ⟨c2, t2, pre ++ i :: post⟩ _ hpl
    rw [hco]
    exact ⟨rfl, rfl⟩

def dbW2 : DB :=
  ⟨[("aaaaaaaaaaaaaaaaaaaaaaaa",
    { name := some "Tea", category := some "Beverages", price := some 10,
      is_available := some true }),
    ("bbbbbbbbbbbbbbbbbbbbbbbb",
    { name := some "Cake", category := some "Snacks", price := some 5,
      is_available := some false })], [], 0⟩

/-- Witness for C2: ordering available A plus unavailable B fails entirely,
naming B, and persists nothing. -/
theorem create_order_atomic_witness :
    ((create_order dbW2 ⟨"Bob", none,
        [⟨"aaaaaaaaaaaaaaaaaaaaaaaa", some 1⟩,
         ⟨"bbbbbbbbbbbbbbbbbbbbbbbb", some 1⟩]⟩).2.isOk = false ∧
      (create_order dbW2 ⟨"Bob", none,
        [⟨"aaaaaaaaaaaaaaaaaaaaaaaa", some 1⟩,
         ⟨"bbbbbbbbbbbbbbbbbbbbbbbb", some 1⟩]⟩).1 = dbW2) ∧
    (create_order dbW2 ⟨"Bob", none,
      [⟨"aaaaaaaaaaaaaaaaaaaaaaaa", some 1⟩] ++
        (⟨"bbbbbbbbbbbbbbbbbbbbbbbb", some 1⟩ : RequestLine) :: []⟩).2 =
      Except.error (Err.http 400 ("Menu item " ++ "bbbbbbbbbbbbbbbbbbbbbbbb"
        ++ " unavailable")) ∧
    (create_order dbW2 ⟨"Bob", none,
      [⟨"aaaaaaaaaaaaaaaaaaaaaaaa", some 1⟩] ++
        (⟨"bbbbbbbbbbbbbbbbbbbbbbbb", some 1⟩ : RequestLine) :: []⟩).1 =
      dbW2 :=
  create_order_atomic dbW2
    ⟨"Bob", none, [⟨"aaaaaaaaaaaaaaaaaaaaaaaa", some 1⟩,
      ⟨"bbbbbbbbbbbbbbbbbbbbbbbb", some 1⟩]⟩
    (by decide) dbW2 "Bob" none [⟨"aaaaaaaaaaaaaaaaaaaaaaaa", some 1⟩] []
    ⟨"bbbbbbbbbbbbbbbbbbbbbbbb", some 1⟩ (by decide) (by decide) (by decide)

/-- C3: After an Order is created, no operation mutates its `items`,
`subtotal`, `tax`, or `total`: `update_menu_item` writes only to the
`menuitem` collection, and `update_order_status` patches only the `status`
field of the targeted order, leaving every other order field in place. -/
theorem post_creation_frame (db : DB) (item_id : String) (mp : MenuPatch)
    (order_id : String) (pl : Option String) :
    (update_menu_item db item_id mp).1.order = db.order ∧
    (update_order_status db order_id pl).1.menuitem = db.menuitem ∧
    List.Forall₂ (fun q q' : String × OrderDoc =>
        q'.1 = q.1 ∧ q'.2.customer_name = q.2.customer_name ∧
        q'.2.table_number = q.2.table_number ∧ q'.2.items = q.2.items ∧
        q'.2.subtotal = q.2.subtotal ∧ q'.2.tax = q.2.tax ∧
        q'.2.total = q.2.total)
      db.order (update_order_status db order_id pl).1.order := by
  have hsame : List.Forall₂ (fun q q' : String × OrderDoc =>
      q'.1 = q.1 ∧ q'.2.customer_name = q.2.customer_name ∧
      q'.2.table_number = q.2.table_number ∧ q'.2.items = q.2.items ∧
      q'.2.subtotal = q.2.subtotal ∧ q'.2.tax = q.2.tax ∧
      q'.2.total = q.2.total) db.order db.order :=
    List.forall₂_same.2 (fun x _ => ⟨rfl, rfl, rfl, rfl, rfl, rfl, rfl⟩)
  refine ⟨?_, ?_⟩
  · unfold update_menu_item
    cases object_id item_id with
    | error e => rfl
    | ok oid =>
      simp only [updateOneMenu]
      by_cases hx : db.menuitem.any (fun q => q.1 == oid)
      · simp [hx]
      · simp [hx]
  · unfold update_order_status
    cases pl with
    | none => exact ⟨rfl, hsame⟩
    | some s =>
      by_cases hs : s ∈ orderStatuses
      · simp only [hs, if_true]
        cases object_id order_id with
        | error e => exact ⟨rfl, hsame⟩
        | ok oid =>
          simp only [updateOneOrderStatus]
          by_cases hx : db.order.any (fun q => q.1 == oid)
          · simp only [hx, if_true]
            refine ⟨rfl, ?_⟩
            refine List.forall₂_map_right_iff.2 (List.forall₂_same.2 ?_)
            intro x _
            by_cases hq : x.1 == oid
            · simp [hq]
            · simp [hq]
          · simp only [hx, if_false]
            exact ⟨by trivial, hsame⟩
      · simp only [hs, if_false]
        exact ⟨by trivial, hsame⟩

def dbC4 : DB := ⟨[], [], 0⟩

/-- Counterexample for C4: a creation request with an empty line list does
not fail — it succeeds and persists an order with zero items and zero
amounts. -/
theorem create_order_empty_items_counterexample :
    (create_order dbC4 ⟨"Alice", none, []⟩).2 =
      Except.ok ⟨freshId 0, 0, 0, 0⟩ ∧
    (create_order dbC4 ⟨"Alice", none, []⟩).1.order =
      [(freshId 0, ⟨"Alice", none, [], 0, 0, 0, "pending"⟩)] := by decide

/-- C4 (amended): `create_order` performs no emptiness validation: for every
store state, a request with an empty requested-lines list succeeds and
persists an Order document with zero items and subtotal = tax = total = 0
(status `pending`). -/
theorem create_order_empty_items (db : DB) (c : String) (t : Option String) :
    create_order db ⟨c, t, []⟩ =
      ({ db with order := db.order ++ [(freshId db.nextId,
          ⟨c, t, [], 0, 0, 0, "pending"⟩)], nextId := db.nextId + 1 },
        Except.ok ⟨freshId db.nextId, 0, 0, 0⟩) := by
  have h0 : round2 0 = 0 := by decide
  have h5 : (0 : ℚ) * (5 / 100) = 0 := by norm_num
  unfold create_order
  simp only [processLines, mkOrder, insertOrder, h5, h0]
  norm_num [h0]

def dbC5 : DB :=
  ⟨[("cccccccccccccccccccccccc",
    { name := some "Tea", category := some "Beverages", price := some 10,
      is_available := some true })], [], 0⟩

/-- Counterexample for C5: a request whose `customer_name` is the empty
string is accepted — the order is created and persists the empty name. -/
theorem create_order_empty_customer_counterexample :
    (create_order dbC5 ⟨"", none,
      [⟨"cccccccccccccccccccccccc", some 1⟩]⟩).2 =
      Except.ok ⟨freshId 0, 10, 1 / 2, 21 / 2⟩ ∧
    lastOrderCustomer (create_order dbC5 ⟨"", none,
      [⟨"cccccccccccccccccccccccc", some 1⟩]⟩).1 = some "" := by decide

/-- `mkOrder` accepts or rejects based on the amounts only: the customer
name, table and items never influence the outcome. -/
theorem mkOrder_ok_of_ok {c : String} {t : Option String}
    {its : List Orderitem} {s a b : ℚ} {od : OrderDoc}
    (h : mkOrder c t its s a b = Except.ok od)
    (c' : String) (t' : Option String) (its' : List Orderitem) :
    mkOrder c' t' its' s a b = Except.ok ⟨c', t', its', s, a, b, "pending"⟩ := by
  unfold mkOrder at h ⊢
  by_cases h1 : s < 0
  · simp [h1] at h
  · by_cases h2 : a < 0
    · simp [h1, h2] at h
    · by_cases h3 : b < 0
      · simp [h1, h2, h3] at h
      · simp [h1, h2, h3]

/-- C5 (amended): `create_order` applies no validation to `customer_name`:
whether creation succeeds is independent of the supplied name (the empty
string included), and the name is persisted verbatim on the created
order. -/
theorem create_order_customer_unchecked (db : DB) (c c' : String)
    (t : Option String) (ls : List RequestLine) (db2 : DB)
    (resp : OrderResponse)
    (h : create_order db ⟨c, t, ls⟩ = (db2, Except.ok resp)) :
    (create_order db ⟨c, t, ls⟩).2.isOk =
      (create_order db ⟨c', t, ls⟩).2.isOk ∧
    lastOrderCustomer db2 = some c := by
  unfold create_order at h ⊢
  simp only [] at h ⊢
  cases hb : processLines db ls [] 0 with
  | error e => rw [hb] at h; simp at h
  | ok r =>
    obtain ⟨its, S⟩ := r
    rw [hb] at h
    simp only [] at h
    cases hm : mkOrder c t its (round2 S) (round2 (S * (5 / 100)))
        (round2 (S + round2 (S * (5 / 100)))) with
    | error e => rw [hm] at h; simp at h
    | ok od =>
      simp only []
      rw [hm, mkOrder_ok_of_ok hm c' t its]
      have hdb : ({ db with
          order := db.order ++ [(freshId db.nextId, od)],
          nextId := db.nextId + 1 } : DB) = db2 := by
        rw [hm] at h
        simp only [insertOrder] at h
        exact congrArg Prod.fst h
      have hod := mkOrder_ok hm
      subst hod
      rw [← hdb]
      refine ⟨rfl, ?_⟩
      simp [lastOrderCustomer, insertOrder]

def db2W5 : DB :=
  ⟨dbC5.menuitem,
    [(freshId 0, ⟨"Ann", none,
      [⟨"cccccccccccccccccccccccc", "Tea", 10, 1, 10⟩], 10, 1 / 2, 21 / 2,
      "pending"⟩)], 1⟩

/-- Witness for C5 (amended): creation succeeds identically for "Ann" and
for the empty name, and persists the supplied name verbatim. -/
theorem create_order_customer_unchecked_witness :
    (create_order dbC5 ⟨"Ann", none,
      [⟨"cccccccccccccccccccccccc", some 1⟩]⟩).2.isOk =
      (create_order dbC5 ⟨"", none,
        [⟨"cccccccccccccccccccccccc", some 1⟩]⟩).2.isOk ∧
    lastOrderCustomer db2W5 = some "Ann" :=
  create_order_customer_unchecked dbC5 "Ann" "" none
    [⟨"cccccccccccccccccccccccc", some 1⟩] db2W5 ⟨freshId 0, 10, 1 / 2, 21 / 2⟩
    (by decide)

/-- C6: The quantity of each requested line is coerced with a missing value
treated as 1, and the coerced value must be at least 1: a request with a
line whose coerced quantity is below 1 fails — as pydantic's `ge=1`
validation error when that line is otherwise well-formed and reached — and
persists nothing. -/
theorem create_order_quantity (db0 : DB) (mid : String)
    (db1 : DB) (p1 : CreateOrder)
    (h1 : ∃ j ∈ p1.items, j.quantity.getD 1 < 1)
    (db2 : DB) (c2 : String) (t2 : Option String)
    (pre post : List RequestLine) (i : RequestLine) (doc : MenuDoc)
    (nm : String)
    (h2a : ∀ j ∈ pre, (priceLine db2 j).isOk = true)
    (h2b : isValidOid i.menu_item_id = true)
    (h2c : findMenuAvailable db2 i.menu_item_id = some doc)
    (h2d : doc.name = some nm)
    (h2e : 0 ≤ doc.price.getD 0)
    (h2f : i.quantity.getD 1 < 1) :
    priceLine db0 ⟨mid, none⟩ = priceLine db0 ⟨mid, some 1⟩ ∧
    ((create_order db1 p1).2.isOk = false ∧ (create_order db1 p1).1 = db1) ∧
    (create_order db2 ⟨c2, t2, pre ++ i :: post⟩).2 =
      Except.error (Err.validation "quantity must be >= 1") ∧
    (create_order db2 ⟨c2, t2, pre ++ i :: post⟩).1 = db2 := by
  have he := priceLine_qty_msg h2b h2c h2d h2e h2f
  have hpl := processLines_first_err he pre post h2a [] 0
  have hco := @create_order_err db2 ⟨c2, t2, pre ++ i :: post⟩ _ hpl
  refine ⟨rfl, ?_, ?_, ?_⟩
  · apply create_order_err_of_processLines
    obtain ⟨j, hmem, hbad⟩ := h1
    exact processLines_err ⟨j, hmem, priceLine_err_of_qty hbad⟩ [] 0
  · rw [hco]
  · rw [hco]

def dbW6 : DB :=
  ⟨[("dddddddddddddddddddddddd",
    { name := some "Tea", category := some "Beverages", price := some 10,
      is_available := some true })], [], 0⟩

/-- Witness for C6: a line with quantity 0 on an otherwise orderable item
fails with the quantity validation error and persists nothing; a missing
quantity prices like quantity 1. -/
theorem create_order_quantity_witness :
    priceLine dbW6 ⟨"dddddddddddddddddddddddd", none⟩ =
      priceLine dbW6 ⟨"dddddddddddddddddddddddd", some 1⟩ ∧
    ((create_order dbW6 ⟨"Bob", none,
        [⟨"dddddddddddddddddddddddd", some 0⟩]⟩).2.isOk = false ∧
      (create_order dbW6 ⟨"Bob", none,
        [⟨"dddddddddddddddddddddddd", some 0⟩]⟩).1 = dbW6) ∧
    (create_order dbW6 ⟨"Bob", none,
      [] ++ (⟨"dddddddddddddddddddddddd", some 0⟩ : RequestLine) :: []⟩).2 =
      Except.error (Err.validation "quantity must be >= 1") ∧
    (create_order dbW6 ⟨"Bob", none,
      [] ++ (⟨"dddddddddddddddddddddddd", some 0⟩ : RequestLine) :: []⟩).1 =
      dbW6 :=
  create_order_quantity dbW6 "dddddddddddddddddddddddd" dbW6
    ⟨"Bob", none, [⟨"dddddddddddddddddddddddd", some 0⟩]⟩ (by decide)
    dbW6 "Bob" none [] [] ⟨"dddddddddddddddddddddddd", some 0⟩
    { name := some "Tea", category := some "Beverages", price := some 10,
      is_available := some true } "Tea"
    (by simp) (by decide) (by decide) (by decide) (by decide) (by decide)

/-- C7: `update_status` accepts exactly the five enumerated values: any
other payload fails with the invalid-status error; an enumerated status
succeeds when the id resolves to a stored order; and an enumerated status
with a well-formed id matching no stored order fails with not-found. -/
theorem update_status_enumeration
    (dbA : DB) (anyId : String) (plBad : Option String)
    (hbad : statusAllowed plBad = false)
    (db : DB) (sGood : String) (hs : sGood ∈ orderStatuses)
    (oidGood : String) (hg1 : isValidOid oidGood = true)
    (hg2 : db.order.any (fun q => q.1 == oidGood) = true)
    (oidMiss : String) (hm1 : isValidOid oidMiss = true)
    (hm2 : db.order.any (fun q => q.1 == oidMiss) = false) :
    (update_order_status dbA anyId plBad).2 =
      Except.error (Err.http 400 "Invalid status") ∧
    (update_order_status db oidGood (some sGood)).2 = Except.ok true ∧
    (update_order_status db oidMiss (some sGood)).2 =
      Except.error (Err.http 404 "Order not found") := by
  refine ⟨?_, ?_, ?_⟩
  · unfold update_order_status
    cases plBad with
    | none => rfl
    | some s =>
      have hns : s ∉ orderStatuses := by
        intro hmem
        have hc : orderStatuses.contains s = true := by
          simpa [List.elem_iff] using hmem
        rw [statusAllowed, hc] at hbad
        cases hbad
      simp only []
      rw [if_neg hns]
  · unfold update_order_status
    simp only []
    rw [if_pos hs, object_id_of_valid hg1]
    simp only [updateOneOrderStatus, hg2, if_true]
    rfl
  · unfold update_order_status
    simp only []
    rw [if_pos hs, object_id_of_valid hm1]
    simp only [updateOneOrderStatus, hm2]
    rfl

def dbW7 : DB :=
  ⟨[], [("ffffffffffffffffffffffff",
    ⟨"Bob", none, [⟨"cccccccccccccccccccccccc", "Tea", 10, 1, 10⟩], 10,
      1 / 2, 21 / 2, "pending"⟩)], 5⟩

/-- Witness for C7: `paid` is rejected, `preparing` succeeds on a stored
order, and a fresh well-formed id yields not-found. -/
theorem update_status_enumeration_witness :
    (update_order_status dbW7 "not-an-id" (some "paid")).2 =
      Except.error (Err.http 400 "Invalid status") ∧
    (update_order_status dbW7 "ffffffffffffffffffffffff"
      (some "preparing")).2 = Except.ok true ∧
    (update_order_status dbW7 "0123456789abcdef01234567"
      (some "preparing")).2 =
      Except.error (Err.http 404 "Order not found") :=
  update_status_enumeration dbW7 "not-an-id" (some "paid") (by decide)
    dbW7 "preparing" (by decide) "ffffffffffffffffffffffff" (by decide)
    (by decide) "0123456789abcdef01234567" (by decide) (by decide)

/-- C8: The metrics operation recomputes its counts fresh from the current
store state on each call: `total_menu` counts every stored menu item,
`active_orders` counts the orders whose status is `pending` or `preparing`,
and `completed_orders` counts the orders whose status is `completed`. -/
theorem metrics_fresh_counts (db : DB) :
    (metrics db).total_menu = db.menuitem.length ∧
    (metrics db).active_orders =
      (db.order.map (fun q => q.2.status)).countP
        (fun s => decide (s = "pending" ∨ s = "preparing")) ∧
    (metrics db).completed_orders =
      (db.order.map (fun q => q.2.status)).countP
        (fun s => decide (s = "completed")) := by
  refine ⟨rfl, ?_, ?_⟩
  · show countOrders db (fun o => ["pending", "preparing"].contains o.status) =
      _
    rw [countOrders, List.countP_map, ← List.countP_eq_length_filter]
    apply List.countP_congr
    intro q _
    constructor
    · intro hc
      have hmem := List.elem_iff.1 hc
      simp only [List.mem_cons, List.not_mem_nil, or_false] at hmem
      simpa using hmem
    · intro hd
      have hor : q.2.status = "pending" ∨ q.2.status = "preparing" := by
        simpa using hd
      apply List.elem_iff.2
      simpa [List.mem_cons] using hor
  · show countOrders db (fun o => o.status == "completed") = _
    rw [countOrders, List.countP_map, ← List.countP_eq_length_filter]
    apply List.countP_congr
    intro q _
    simp [beq_eq_decide]

/-- C9: `update_order_status` validates the status value before resolving
the order id: a payload outside the five enumerated values yields the
invalid-status error no matter what the id is — and conversely the
not-found and invalid-id errors are only reachable with an enumerated
status. -/
theorem update_status_checked_first
    (db1 : DB) (id1 : String) (pl1 : Option String)
    (h1 : statusAllowed pl1 = false)
    (db2 : DB) (id2 : String) (pl2 : Option String)
    (h2 : (update_order_status db2 id2 pl2).2 =
        Except.error (Err.http 404 "Order not found") ∨
      (update_order_status db2 id2 pl2).2 =
        Except.error (Err.http 400 "Invalid id")) :
    ((update_order_status db1 id1 pl1).2 =
      Except.error (Err.http 400 "Invalid status") ∧
     (update_order_status db1 id1 pl1).1 = db1) ∧
    statusAllowed pl2 = true := by
  constructor
  · unfold update_order_status
    cases pl1 with
    | none => exact ⟨rfl, rfl⟩
    | some s =>
      have hns : s ∉ orderStatuses := by
        intro hmem
        have hc : orderStatuses.contains s = true := by
          simpa [List.elem_iff] using hmem
        rw [statusAllowed, hc] at h1
        cases h1
      simp only []
      rw [if_neg hns]
      exact ⟨rfl, rfl⟩
  · unfold update_order_status at h2
    cases pl2 with
    | none => simp at h2
    | some s =>
      by_cases hs : s ∈ orderStatuses
      · rw [statusAllowed]
        simpa [List.elem_iff] using hs
      · simp only [] at h2
        rw [if_neg hs] at h2
        simp at h2

def dbW9 : DB := ⟨[], [], 3⟩

/-- Witness for C9: a malformed id together with an invalid status yields
the invalid-status error, and a 404 observed with status `pending` shows
that status was admissible. -/
theorem update_status_checked_first_witness :
    ((update_order_status dbW9 "zzz" (some "finished")).2 =
      Except.error (Err.http 400 "Invalid status") ∧
     (update_order_status dbW9 "zzz" (some "finished")).1 = dbW9) ∧
    statusAllowed (some "pending") = true :=
  update_status_checked_first dbW9 "zzz" (some "finished") (by decide)
    dbW9 "0123456789abcdef01234567" (some "pending")
    (Or.inl (by decide))

/-- `mkOrder` raises based on the amounts only. -/
theorem mkOrder_error_of_error {c : String} {t : Option String}
    {its : List Orderitem} {s a b : ℚ} {e : Err}
    (h : mkOrder c t its s a b = Except.error e)
    (c' : String) (t' : Option String) (its' : List Orderitem) :
    mkOrder c' t' its' s a b = Except.error e := by
  unfold mkOrder at h ⊢
  by_cases h1 : s < 0
  · simpa [h1] using h
  · by_cases h2 : a < 0
    · simpa [h1, h2] using h
    · by_cases h3 : b < 0
      · simpa [h1, h2, h3] using h
      · simp [h1, h2, h3] at h

/-- Dropping a line that prices to zero changes neither the loop's error
outcome nor its accumulated subtotal (only the item list). -/
theorem processLines_skip_zero {db : DB} {i : RequestLine} {it : Orderitem}
    (hi : priceLine db i = Except.ok (it, 0)) (post : List RequestLine) :
    ∀ (pre : List RequestLine) (acc : List Orderitem) (sub : ℚ),
      Except.map (fun r => r.2) (processLines db (pre ++ i :: post) acc sub) =
        Except.map (fun r => r.2) (processLines db (pre ++ post) acc sub) := by
  intro pre
  induction pre with
  | nil =>
    intro acc sub
    simp only [List.nil_append, processLines]
    rw [hi]
    simp only []
    rw [processLines_acc db post (acc ++ [it]) (sub + 0),
      processLines_acc db post acc sub]
    cases processLines db post [] 0 with
    | error e => simp [exmap_error]
    | ok r => simp [exmap_ok]
  | cons j rest ih =>
    intro acc sub
    simp only [List.cons_append, processLines]
    cases hp : priceLine db j with
    | error e => simp [exmap_error]
    | ok p =>
      obtain ⟨it', lt'⟩ := p
      simp only []
      exact ih (acc ++ [it']) (sub + lt')

/-- Every line of a successful run contributes its priced item to the
resulting item list. -/
theorem processLines_mem {db : DB} {ls : List RequestLine} :
    ∀ {acc : List Orderitem} {sub : ℚ} {its : List Orderitem} {S : ℚ},
      processLines db ls acc sub = Except.ok (its, S) →
      ∀ j ∈ ls, ∀ {it : Orderitem} {lt : ℚ},
        priceLine db j = Except.ok (it, lt) → it ∈ its := by
  induction ls with
  | nil =>
    intro acc sub its S h j hj
    simp at hj
  | cons k rest ih =>
    intro acc sub its S h j hj it lt hp
    simp only [processLines] at h
    cases hk : priceLine db k with
    | error e => rw [hk] at h; simp at h
    | ok p =>
      obtain ⟨itk, ltk⟩ := p
      rw [hk] at h
      simp only [] at h
      rcases List.mem_cons.1 hj with rfl | hjr
      · rw [hp] at hk
        obtain ⟨hit, _⟩ := Prod.mk.injEq .. ▸ (Except.ok.injEq .. ▸ hk)
        obtain ⟨tail, htail⟩ := processLines_acc_leading h
        subst htail
        subst hit
        exact List.mem_append_left tail (List.mem_append_right acc
          (List.mem_singleton_self it))
      · exact ih h j hjr hp

/-- C10: A menu item document that is available but lacks a `price` field is
treated as free: the resulting order line snapshots price 0 and
line_total 0, and the line contributes nothing to subtotal, tax, or
total — the response equals the one for the same request without the
line. -/
theorem create_order_missing_price (db : DB) (i : RequestLine)
    (doc : MenuDoc) (nm : String)
    (h1 : findMenuAvailable db i.menu_item_id = some doc)
    (h2 : doc.price = none)
    (h3 : doc.name = some nm)
    (h4 : isValidOid i.menu_item_id = true)
    (h5 : 1 ≤ i.quantity.getD 1)
    (c : String) (t : Option String) (pre post : List RequestLine)
    (h6 : (create_order db ⟨c, t, pre ++ i :: post⟩).2.isOk = true) :
    priceLine db i =
      Except.ok (⟨i.menu_item_id, nm, 0, i.quantity.getD 1, 0⟩, 0) ∧
    (create_order db ⟨c, t, pre ++ i :: post⟩).2 =
      (create_order db ⟨c, t, pre ++ post⟩).2 ∧
    (⟨i.menu_item_id, nm, 0, i.quantity.getD 1, 0⟩ : Orderitem) ∈
      lastOrderItems (create_order db ⟨c, t, pre ++ i :: post⟩).1 := by
  have hpl : priceLine db i =
      Except.ok (⟨i.menu_item_id, nm, 0, i.quantity.getD 1, 0⟩, 0) := by
    unfold priceLine
    rw [object_id_of_valid h4]
    simp only []
    rw [h1]
    simp only []
    unfold mkOrderitem
    rw [h3]
    simp [h2, not_lt.2 h5]
  refine ⟨hpl, ?_, ?_⟩
  · -- the zero line does not change the response
    have hmap := processLines_skip_zero hpl post pre [] 0
    unfold create_order
    simp only []
    cases hb : processLines db (pre ++ post) [] 0 with
    | error e =>
      rw [hb] at hmap
      cases hb2 : processLines db (pre ++ i :: post) [] 0 with
      | error e2 =>
        rw [hb2] at hmap
        simp only [exmap_error] at hmap
        cases hmap
        rfl
      | ok r2 =>
        rw [hb2] at hmap
        simp [exmap_ok, exmap_error] at hmap
    | ok r =>
      obtain ⟨its, S⟩ := r
      cases hb2 : processLines db (pre ++ i :: post) [] 0 with
      | error e2 =>
        rw [hb2, hb] at hmap
        simp [exmap_ok, exmap_error] at hmap
      | ok r2 =>
        obtain ⟨its2, S2⟩ := r2
        rw [hb2, hb] at hmap
        simp only [exmap_ok] at hmap
        have hS : S2 = S := by simpa using hmap
        subst hS
        simp only []
        cases hm : mkOrder c t its (round2 S2) (round2 (S2 * (5 / 100)))
            (round2 (S2 + round2 (S2 * (5 / 100)))) with
        | error e =>
          rw [mkOrder_error_of_error hm c t its2]
        | ok od =>
          rw [mkOrder_ok_of_ok hm c t its2]
          have hod := mkOrder_ok hm
          subst hod
          rfl
  · -- the zero line's snapshot is persisted on the created order
    cases hb2 : processLines db (pre ++ i :: post) [] 0 with
    | error e =>
      have hce := @create_order_err db ⟨c, t, pre ++ i :: post⟩ _ hb2
      rw [hce] at h6
      simp [Except.isOk, Except.toBool] at h6
    | ok r2 =>
      obtain ⟨its2, S2⟩ := r2
      unfold create_order at h6 ⊢
      simp only [] at h6 ⊢
      rw [hb2] at h6 ⊢
      simp only [] at h6 ⊢
      cases hm : mkOrder c t its2 (round2 S2) (round2 (S2 * (5 / 100)))
          (round2 (S2 + round2 (S2 * (5 / 100)))) with
      | error e =>
        rw [hm] at h6
        simp [Except.isOk, Except.toBool] at h6
      | ok od =>
        have hod := mkOrder_ok hm
        subst hod
        simp only [insertOrder, lastOrderItems, List.getLast?_concat]
        exact processLines_mem hb2 i
          (List.mem_append_right pre (List.mem_cons_self i post)) hpl

def dbW10 : DB :=
  ⟨[("eeeeeeeeeeeeeeeeeeeeeeee",
    { name := some "Mystery", category := some "Specials",
      is_available := some true })], [], 0⟩

/-- Witness for C10: an available item without a price field prices at 0:
ordering two of it alongside nothing else succeeds with all amounts 0 and
persists the zero-priced line. -/
theorem create_order_missing_price_witness :
    priceLine dbW10 ⟨"eeeeeeeeeeeeeeeeeeeeeeee", some 2⟩ =
      Except.ok (⟨"eeeeeeeeeeeeeeeeeeeeeeee", "Mystery", 0, 2, 0⟩, 0) ∧
    (create_order dbW10 ⟨"Zoe", none,
      [] ++ (⟨"eeeeeeeeeeeeeeeeeeeeeeee", some 2⟩ : RequestLine) :: []⟩).2 =
      (create_order dbW10 ⟨"Zoe", none, [] ++ []⟩).2 ∧
    (⟨"eeeeeeeeeeeeeeeeeeeeeeee", "Mystery", 0, 2, 0⟩ : Orderitem) ∈
      lastOrderItems (create_order dbW10 ⟨"Zoe", none,
        [] ++ (⟨"eeeeeeeeeeeeeeeeeeeeeeee", some 2⟩ : RequestLine) ::
          []⟩).1 := by
  have h := create_order_missing_price dbW10
    ⟨"eeeeeeeeeeeeeeeeeeeeeeee", some 2⟩
    { name := some "Mystery", category := some "Specials",
      is_available := some true } "Mystery"
    (by decide) (by decide) (by decide) (by decide) (by decide)
    "Zoe" none [] [] (by decide)
  simpa using h

end Canteen
